import Mathlib

/-
  Verification development for the probabilistic scene recognition
  inference engine (asr-ros-pkg).  The engine code
  (SceneInferenceEngine.cpp) is embedded shallowly: the ROS node state
  becomes an explicit record, the scene model (whose implementation
  lives outside this repository) is tracked through the ordered trace
  of calls the engine makes into it, and the coordinate-transform
  collaborator is a parameter function that may fail (Option).
-/

namespace ProbabilisticSceneRecognition

/-- An object observation message (pbd_msgs::PbdObject): an object type
name together with a pose; the pose is abstracted to a triple of
integer coordinates since the engine never inspects it, only hands it
to the transform collaborator. -/
structure PbdObject where
  objType : String
  pose : Int × Int × Int
deriving Repr, DecidableEq

/-- A scene-graph learning example message (pbd_msgs::PbdSceneGraph),
identified by the scene it exemplifies. -/
structure PbdSceneGraph where
  identifier : String
deriving Repr, DecidableEq

/-- One call made by the engine into the scene model
(SceneModelDescription).  The model itself is implemented outside this
repository, so the engine's interaction with it is recorded as an
ordered trace of these operations. -/
inductive ModelOp where
  | integrateEvidence (e : PbdObject)
  | updateModel
  | integrateSceneGraph (g : PbdSceneGraph)
deriving Repr, DecidableEq

/-- The mutable state of the SceneInferenceEngine node: the two FIFO
message buffers (std::queue, head = front), the configuration flags
read at startup, the topics of the two subscribers (none while a
subscriber is uninitialized), the base frame of the object transformer,
and the trace of calls made into the scene model. -/
structure EngineState where
  showPlot : Bool
  mTargetingHelp : Bool
  objectListenerTopic : Option String
  sceneGraphListenerTopic : Option String
  evidenceBuffer : List PbdObject
  sceneGraphBuffer : List PbdSceneGraph
  baseFrameId : String
  modelOps : List ModelOp
deriving Repr, DecidableEq

/-- mModel.integrateEvidence(evidence): appends the call to the model
trace. -/
def integrateEvidenceCall (e : PbdObject) (s : EngineState) : EngineState :=
  { s with modelOps := s.modelOps ++ [ModelOp.integrateEvidence e] }

/-- mModel.updateModel(): appends the recompute call to the model
trace. -/
def updateModelCall (s : EngineState) : EngineState :=
  { s with modelOps := s.modelOps ++ [ModelOp.updateModel] }

/-- mModel.integrateSceneGraph(sceneGraph): appends the call to the
model trace. -/
def integrateSceneGraphCall (g : PbdSceneGraph) (s : EngineState) : EngineState :=
  { s with modelOps := s.modelOps ++ [ModelOp.integrateSceneGraph g] }

/-- SceneInferenceEngine::newObservationCallback: buffers the evidence
to keep callback time as short as possible (push onto the FIFO queue). -/
def newObservationCallback (e : PbdObject) (s : EngineState) : EngineState :=
  { s with evidenceBuffer := s.evidenceBuffer ++ [e] }

/-- SceneInferenceEngine::newSceneGraphCallback: buffers the scene
graph to keep callback time as short as possible (push onto the FIFO
queue). -/
def newSceneGraphCallback (g : PbdSceneGraph) (s : EngineState) : EngineState :=
  { s with sceneGraphBuffer := s.sceneGraphBuffer ++ [g] }

/-- The evidence-draining while loop of SceneInferenceEngine::update
(part_000 lines 124-147): pop the front entry, try to transform it
(tf); on failure drop the object and continue, on success forward it to
mModel.integrateEvidence.  The list argument is the remaining queue
content. -/
def processEvidenceList (tf : PbdObject → Option PbdObject) :
    List PbdObject → EngineState → EngineState
  | [], s => s
  | e :: rest, s =>
    match tf e with
    | none => processEvidenceList tf rest s
    | some e2 => processEvidenceList tf rest (integrateEvidenceCall e2 s)

/-- The scene-graph draining while loop of SceneInferenceEngine::update
(part_000 lines 157-170): pop the front entry and forward it to
mModel.integrateSceneGraph. -/
def processSceneGraphList :
    List PbdSceneGraph → EngineState → EngineState
  | [], s => s
  | g :: rest, s => processSceneGraphList rest (integrateSceneGraphCall g s)

/-- SceneInferenceEngine::update (part_000 lines 114-211): drain the
evidence buffer (transforming and integrating each entry), call
mModel.updateModel() once, then drain the scene-graph buffer into
mModel.integrateSceneGraph.  The remaining body only reads the scene
list and drives visualization, leaving the state untouched. -/
def update (tf : PbdObject → Option PbdObject) (s : EngineState) : EngineState :=
  let s1 := processEvidenceList tf s.evidenceBuffer { s with evidenceBuffer := [] }
  let s2 := updateModelCall s1
  processSceneGraphList s2.sceneGraphBuffer { s2 with sceneGraphBuffer := [] }

/-- The model calls emitted by the evidence-draining loop for a given
queue content: one integrateEvidence per entry whose transform
succeeds, nothing for an entry whose transform fails. -/
def evidenceOps (tf : PbdObject → Option PbdObject) :
    List PbdObject → List ModelOp
  | [] => []
  | e :: rest =>
    match tf e with
    | none => evidenceOps tf rest
    | some e2 => ModelOp.integrateEvidence e2 :: evidenceOps tf rest

theorem processEvidenceList_spec (tf : PbdObject → Option PbdObject)
    (es : List PbdObject) (s : EngineState) :
    processEvidenceList tf es s =
      { s with modelOps := s.modelOps ++ evidenceOps tf es } := by
  induction es generalizing s with
  | nil => simp [processEvidenceList, evidenceOps]
  | cons e rest ih =>
    cases h : tf e with
    | none => simp [processEvidenceList, evidenceOps, h, ih]
    | some e2 =>
      simp [processEvidenceList, evidenceOps, h, ih, integrateEvidenceCall]

theorem processSceneGraphList_spec (gs : List PbdSceneGraph) (s : EngineState) :
    processSceneGraphList gs s =
      { s with modelOps := s.modelOps ++ gs.map ModelOp.integrateSceneGraph } := by
  induction gs generalizing s with
  | nil => simp [processSceneGraphList]
  | cons g rest ih =>
    simp [processSceneGraphList, ih, integrateSceneGraphCall]

theorem update_spec (tf : PbdObject → Option PbdObject) (s : EngineState) :
    update tf s =
      { s with
        evidenceBuffer := [],
        sceneGraphBuffer := [],
        modelOps := s.modelOps ++ evidenceOps tf s.evidenceBuffer
          ++ [ModelOp.updateModel]
          ++ s.sceneGraphBuffer.map ModelOp.integrateSceneGraph } := by
  simp [update, processEvidenceList_spec, processSceneGraphList_spec,
    updateModelCall]

theorem evidenceOps_only_integrate (tf : PbdObject → Option PbdObject)
    (es : List PbdObject) :
    ∀ op ∈ evidenceOps tf es, ∃ e, op = ModelOp.integrateEvidence e := by
  induction es with
  | nil => simp [evidenceOps]
  | cons e rest ih =>
    cases h : tf e with
    | none => simpa [evidenceOps, h] using ih
    | some e2 =>
      intro op hop
      simp only [evidenceOps, h, List.mem_cons] at hop
      rcases hop with rfl | hop
      · exact ⟨e2, rfl⟩
      · exact ih op hop

/-- CLAIM C1.  One call to update performs exactly two phases in order:
it first drains the evidence buffer to empty, emitting only
integrateEvidence calls (an entry whose transform fails contributes
nothing and the loop continues), then calls updateModel exactly once,
and only afterwards drains the scene-graph buffer into
integrateSceneGraph calls, with no further updateModel in that second
phase. -/
theorem update_two_phase_order (tf : PbdObject → Option PbdObject)
    (s : EngineState) :
    (update tf s).evidenceBuffer = [] ∧
    (update tf s).sceneGraphBuffer = [] ∧
    (update tf s).modelOps =
      s.modelOps ++ evidenceOps tf s.evidenceBuffer
        ++ [ModelOp.updateModel]
        ++ s.sceneGraphBuffer.map ModelOp.integrateSceneGraph ∧
    (∀ op ∈ evidenceOps tf s.evidenceBuffer,
      ∃ e, op = ModelOp.integrateEvidence e) ∧
    (evidenceOps tf s.evidenceBuffer
        ++ [ModelOp.updateModel]
        ++ s.sceneGraphBuffer.map ModelOp.integrateSceneGraph).count
      ModelOp.updateModel = 1 := by
  refine ⟨?_, ?_, ?_, evidenceOps_only_integrate tf s.evidenceBuffer, ?_⟩
  · simp [update_spec]
  · simp [update_spec]
  · simp [update_spec]
  · have h1 : (evidenceOps tf s.evidenceBuffer).count ModelOp.updateModel = 0 := by
      rw [List.count_eq_zero]
      intro hmem
      rcases evidenceOps_only_integrate tf s.evidenceBuffer _ hmem with ⟨e, he⟩
      exact ModelOp.noConfusion he
    have h2 : (s.sceneGraphBuffer.map ModelOp.integrateSceneGraph).count
        ModelOp.updateModel = 0 := by
      rw [List.count_eq_zero]
      intro hmem
      rcases List.mem_map.mp hmem with ⟨g, _, hg⟩
      exact ModelOp.noConfusion hg
    simp [List.count_append, h1, h2]

/-- CLAIM C2.  An evidence entry whose coordinate transform fails is
dropped before reaching the model: processing the queue with that entry
at the front is the same as processing the remaining queue (so
integrateEvidence is never called for it and the model trace is
unchanged by it), and the drained calls for the singleton queue holding
it are empty. -/
theorem transform_failure_drops_item (tf : PbdObject → Option PbdObject)
    (e : PbdObject) (rest : List PbdObject) (s : EngineState)
    (h : tf e = none) :
    processEvidenceList tf (e :: rest) s = processEvidenceList tf rest s ∧
    evidenceOps tf [e] = [] := by
  constructor
  · simp [processEvidenceList, h]
  · simp [evidenceOps, h]

/-- A concrete engine state used by witnesses. -/
def sampleState : EngineState :=
  { showPlot := true
    mTargetingHelp := false
    objectListenerTopic := some "/pbd/object"
    sceneGraphListenerTopic := some "/pbd/scene_graph"
    evidenceBuffer := []
    sceneGraphBuffer := []
    baseFrameId := "/map"
    modelOps := [] }

/-- Witness for C2: a transform that always fails drops the concrete
object. -/
theorem transform_failure_drops_item_witness :
    processEvidenceList (fun _ => none)
        (⟨"cup", (0, 0, 0)⟩ :: []) sampleState =
      processEvidenceList (fun _ => none) [] sampleState ∧
    evidenceOps (fun _ => none) [⟨"cup", (0, 0, 0)⟩] = [] :=
  transform_failure_drops_item (fun _ => none) ⟨"cup", (0, 0, 0)⟩ [] sampleState rfl

/-- CLAIM C8.  The two arrival callbacks only append the incoming
message to their buffer queue: every other engine field — the model
trace, the transformer's base frame, the flags, the subscriber topics
and the other buffer — is unchanged, and no integration or inference
call is made at arrival time. -/
theorem callbacks_only_enqueue (e : PbdObject) (g : PbdSceneGraph)
    (s : EngineState) :
    (newObservationCallback e s).evidenceBuffer = s.evidenceBuffer ++ [e] ∧
    (newObservationCallback e s).sceneGraphBuffer = s.sceneGraphBuffer ∧
    (newObservationCallback e s).modelOps = s.modelOps ∧
    (newObservationCallback e s).baseFrameId = s.baseFrameId ∧
    (newObservationCallback e s).showPlot = s.showPlot ∧
    (newObservationCallback e s).mTargetingHelp = s.mTargetingHelp ∧
    (newObservationCallback e s).objectListenerTopic = s.objectListenerTopic ∧
    (newObservationCallback e s).sceneGraphListenerTopic =
      s.sceneGraphListenerTopic ∧
    (newSceneGraphCallback g s).sceneGraphBuffer = s.sceneGraphBuffer ++ [g] ∧
    (newSceneGraphCallback g s).evidenceBuffer = s.evidenceBuffer ∧
    (newSceneGraphCallback g s).modelOps = s.modelOps ∧
    (newSceneGraphCallback g s).baseFrameId = s.baseFrameId ∧
    (newSceneGraphCallback g s).showPlot = s.showPlot ∧
    (newSceneGraphCallback g s).mTargetingHelp = s.mTargetingHelp ∧
    (newSceneGraphCallback g s).objectListenerTopic = s.objectListenerTopic ∧
    (newSceneGraphCallback g s).sceneGraphListenerTopic =
      s.sceneGraphListenerTopic := by
  refine ⟨rfl, rfl, rfl, rfl, rfl, rfl, rfl, rfl, rfl, rfl, rfl, rfl, rfl,
    rfl, rfl, rfl⟩

/-
  Startup configuration (SceneInferenceEngine constructor, part_000
  lines 34-89).  ROS node parameters are a name-to-value store; a typed
  getParam succeeds only when the name is present with the requested
  type (XmlRpc typing).
-/

/-- A parameter value in the ROS parameter server
(XmlRpc::XmlRpcValue). -/
inductive ParamValue where
  | boolVal (b : Bool)
  | strVal (s : String)
  | doubleVal (q : ℚ)
  | arrVal (l : List ParamValue)

/-- The parameter store of the private node handle. -/
def lookupParam (params : List (String × ParamValue)) (n : String) :
    Option ParamValue :=
  params.lookup n

/-- getParam(name, bool target): succeeds only for a present boolean
parameter. -/
def getBoolParam (params : List (String × ParamValue)) (n : String) :
    Option Bool :=
  match lookupParam params n with
  | some (ParamValue.boolVal b) => some b
  | _ => none

/-- getParam(name, string target): succeeds only for a present string
parameter. -/
def getStringParam (params : List (String × ParamValue)) (n : String) :
    Option String :=
  match lookupParam params n with
  | some (ParamValue.strVal v) => some v
  | _ => none

/-- getParam(name, double target): succeeds only for a present numeric
parameter. -/
def getDoubleParam (params : List (String × ParamValue)) (n : String) :
    Option ℚ :=
  match lookupParam params n with
  | some (ParamValue.doubleVal q) => some q
  | _ => none

/-- The configuration assembled by the constructor once every required
parameter has been read (part_000 lines 34-89); reaching it means the
constructor proceeds to load the model and enter operation. -/
structure EngineConfig where
  showPlot : Bool
  objectTopic : String
  sceneGraphTopic : String
  sceneModelFilename : String
  bagFilenames : List String
  baseFrameId : String
  scaleFactor : ℚ
  sigmaMultiplicator : ℚ
  targetingHelp : Bool
  inferenceAlgorithm : String
deriving Repr, DecidableEq

/-- The optional bag_filenames_list handling (part_000 lines 50-69):
absent is fine, one string is accepted, otherwise the value must be an
array whose every element is a string. -/
def checkBagFilenames : Option ParamValue → Except String (List String)
  | none => Except.ok []
  | some (ParamValue.strVal v) => Except.ok [v]
  | some (ParamValue.arrVal l) =>
    let rec collect : List ParamValue → Except String (List String)
      | [] => Except.ok []
      | ParamValue.strVal v :: rest =>
        match collect rest with
        | Except.ok vs => Except.ok (v :: vs)
        | Except.error msg => Except.error msg
      | _ :: _ => Except.error "Bag file path is no valid string."
    collect l
  | some _ =>
    Except.error "CLI option bag_filenames_list not set with an array."

/-- SceneInferenceEngine::SceneInferenceEngine (part_000 lines 34-89):
each required parameter is read in order and a missing (or wrongly
typed) one throws a runtime error; bag_filenames_list is optional but
type-checked when present. -/
def constructEngine (params : List (String × ParamValue)) :
    Except String EngineConfig :=
  match getBoolParam params "plot" with
  | none => Except.error "Please specify parameter plot when starting this node."
  | some showPlot =>
  match getStringParam params "object_topic" with
  | none => Except.error "Please specify parameter object_topic when starting this node."
  | some objectTopic =>
  match getStringParam params "scene_graph_topic" with
  | none => Except.error "Please specify parameter scene_graph_topic when starting this node."
  | some sceneGraphTopic =>
  match getStringParam params "scene_model_filename" with
  | none => Except.error "Please specify parameter scene_model_filename when starting this node."
  | some sceneModelFilename =>
  match checkBagFilenames (lookupParam params "bag_filenames_list") with
  | Except.error msg => Except.error msg
  | Except.ok bagFilenames =>
  match getStringParam params "base_frame_id" with
  | none => Except.error "Please specify parameter base_frame_id when starting this node."
  | some baseFrameId =>
  match getDoubleParam params "scale_factor" with
  | none => Except.error "Please specify parameter scale_factor when starting this node."
  | some scaleFactor =>
  match getDoubleParam params "sigma_multiplicator" with
  | none => Except.error "Please specify parameter sigma_multiplicator when starting this node."
  | some sigmaMultiplicator =>
  match getBoolParam params "targeting_help" with
  | none => Except.error "Please specify parameter targeting_help when starting this node."
  | some targetingHelp =>
  match getStringParam params "inference_algorithm" with
  | none => Except.error "Please specify parameter inference_algorithm when starting this node."
  | some inferenceAlgorithm =>
    Except.ok
      { showPlot := showPlot
        objectTopic := objectTopic
        sceneGraphTopic := sceneGraphTopic
        sceneModelFilename := sceneModelFilename
        bagFilenames := bagFilenames
        baseFrameId := baseFrameId
        scaleFactor := scaleFactor
        sigmaMultiplicator := sigmaMultiplicator
        targetingHelp := targetingHelp
        inferenceAlgorithm := inferenceAlgorithm }

/-- The options the constructor refuses to start without. -/
def requiredOptions : List String :=
  ["plot", "object_topic", "scene_graph_topic", "scene_model_filename",
   "base_frame_id", "scale_factor", "sigma_multiplicator",
   "targeting_help", "inference_algorithm"]

theorem getBoolParam_isSome {params : List (String × ParamValue)}
    {n : String} {b : Bool} (h : getBoolParam params n = some b) :
    (lookupParam params n).isSome := by
  unfold getBoolParam at h
  cases hl : lookupParam params n with
  | none => rw [hl] at h; exact Option.noConfusion h
  | some v => simp

theorem getStringParam_isSome {params : List (String × ParamValue)}
    {n : String} {v : String} (h : getStringParam params n = some v) :
    (lookupParam params n).isSome := by
  unfold getStringParam at h
  cases hl : lookupParam params n with
  | none => rw [hl] at h; exact Option.noConfusion h
  | some w => simp

theorem getDoubleParam_isSome {params : List (String × ParamValue)}
    {n : String} {q : ℚ} (h : getDoubleParam params n = some q) :
    (lookupParam params n).isSome := by
  unfold getDoubleParam at h
  cases hl : lookupParam params n with
  | none => rw [hl] at h; exact Option.noConfusion h
  | some w => simp

theorem constructEngine_ok_lookups {params : List (String × ParamValue)}
    {cfg : EngineConfig} (h : constructEngine params = Except.ok cfg) :
    ∀ r ∈ requiredOptions, (lookupParam params r).isSome := by
  unfold constructEngine at h
  intro r hr
  simp only [requiredOptions, List.mem_cons, List.not_mem_nil, or_false] at hr
  repeat' split at h
  all_goals first
    | exact Except.noConfusion h
    | (rcases hr with rfl | rfl | rfl | rfl | rfl | rfl | rfl | rfl | rfl <;>
        first
          | exact getBoolParam_isSome (by assumption)
          | exact getStringParam_isSome (by assumption)
          | exact getDoubleParam_isSome (by assumption))

/-- CLAIM C6.  If any required configuration option (plot,
object_topic, scene_graph_topic, scene_model_filename, base_frame_id,
scale_factor, sigma_multiplicator, targeting_help,
inference_algorithm) is missing from the parameter store, engine
construction fails with an error instead of continuing with a
default. -/
theorem missing_required_option_fails (params : List (String × ParamValue))
    (h : ∃ r ∈ requiredOptions, lookupParam params r = none) :
    ∃ msg, constructEngine params = Except.error msg := by
  rcases h with ⟨r, hr, hnone⟩
  cases hc : constructEngine params with
  | error msg => exact ⟨msg, rfl⟩
  | ok cfg =>
    have := constructEngine_ok_lookups hc r hr
    rw [hnone] at this
    exact absurd this (by simp)

/-- Witness for C6: with an empty parameter store the required option
plot is missing and construction errors out. -/
theorem missing_required_option_fails_witness :
    (∃ r ∈ requiredOptions, lookupParam [] r = none) ∧
    ∃ msg, constructEngine [] = Except.error msg :=
  ⟨⟨"plot", by decide, rfl⟩,
    missing_required_option_fails [] ⟨"plot", by decide, rfl⟩⟩

/-
  Rosbag archive handling (part_000 lines 213-278 and 304-349).  An
  archive either fails to open (rosbag::BagIOException) or yields the
  list of records matching the queried topic; instantiating a record as
  the expected message type may fail (NULL), hence Option.
-/

/-- A rosbag archive as seen through a topic query: unopenable, or the
matching records in order, each of which may fail to instantiate as the
expected message type. -/
inductive BagFile (α : Type) where
  | unopenable
  | contents (records : List (Option α))

/-- SceneInferenceEngine::extractPbdSceneGraphsFromBag (part_000 lines
304-349): throws if the scene-graph subscriber is not set; returns
without raising when the archive cannot be opened; warns (Bool result)
when the archive holds no matching record; otherwise feeds every
instantiated record to newSceneGraphCallback. -/
def extractPbdSceneGraphsFromBag (bag : BagFile PbdSceneGraph)
    (s : EngineState) : Except String (EngineState × Bool) :=
  match s.sceneGraphListenerTopic with
  | none =>
    Except.error
      "Cannot parse bag file with PbdSceneGraphs without knowing on which topic they were sent."
  | some _ =>
    match bag with
    | BagFile.unopenable => Except.ok (s, false)
    | BagFile.contents records =>
      Except.ok
        (records.foldl
          (fun st rec =>
            match rec with
            | none => st
            | some g => newSceneGraphCallback g st) s,
         records.isEmpty)

/-- CLAIM C7.  Archive ingestion skips without raising when the archive
cannot be opened (the state is returned untouched), and an archive that
opens with zero matching records produces the warning while leaving the
engine state — buffers and model trace included — identical to before
ingestion. -/
theorem archive_error_handling (s : EngineState) (t : String)
    (h : s.sceneGraphListenerTopic = some t) :
    extractPbdSceneGraphsFromBag BagFile.unopenable s = Except.ok (s, false) ∧
    extractPbdSceneGraphsFromBag (BagFile.contents []) s = Except.ok (s, true) := by
  constructor
  · simp [extractPbdSceneGraphsFromBag, h]
  · simp [extractPbdSceneGraphsFromBag, h, List.foldl, List.isEmpty]

/-- Witness for C7 at the concrete sample state. -/
theorem archive_error_handling_witness :
    extractPbdSceneGraphsFromBag BagFile.unopenable sampleState =
      Except.ok (sampleState, false) ∧
    extractPbdSceneGraphsFromBag (BagFile.contents []) sampleState =
      Except.ok (sampleState, true) :=
  archive_error_handling sampleState "/pbd/scene_graph" rfl

/-- The model calls a single archive record contributes in stack mode:
nothing when instantiation or the transform fails, otherwise
integrateEvidence immediately followed by updateModel. -/
def stackRecordOps (tf : PbdObject → Option PbdObject) :
    Option PbdObject → List ModelOp
  | none => []
  | some o =>
    match tf o with
    | none => []
    | some o2 => [ModelOp.integrateEvidence o2, ModelOp.updateModel]

/-- The record loop of SceneInferenceEngine::executeInStackMode
(part_000 lines 250-274): for each record, instantiate it as a
PbdObject (skip on NULL), try the transform (drop on failure, continue)
and otherwise call integrateEvidence followed by updateModel. -/
def processStackRecords (tf : PbdObject → Option PbdObject) :
    List (Option PbdObject) → EngineState → EngineState
  | [], s => s
  | rec :: rest, s =>
    match rec with
    | none => processStackRecords tf rest s
    | some o =>
      match tf o with
      | none => processStackRecords tf rest s
      | some o2 =>
        processStackRecords tf rest (updateModelCall (integrateEvidenceCall o2 s))

/-- SceneInferenceEngine::executeInStackMode (part_000 lines 213-278):
reads the bag_path parameter (throwing when missing), throws when the
object subscriber is unset, returns when the archive cannot be opened,
warns on an empty view, and runs one pass of the record loop. -/
def executeInStackMode (tf : PbdObject → Option PbdObject)
    (params : List (String × ParamValue)) (bag : BagFile PbdObject)
    (s : EngineState) : Except String (EngineState × Bool) :=
  match getStringParam params "bag_path" with
  | none =>
    Except.error "Please specify parameter bag_path when starting this node."
  | some _ =>
    match s.objectListenerTopic with
    | none =>
      Except.error
        "Cannot parse bag file with PbdSceneGraphs without knowing on which topic they were sent."
    | some _ =>
      match bag with
      | BagFile.unopenable => Except.ok (s, false)
      | BagFile.contents records =>
        Except.ok (processStackRecords tf records s, records.isEmpty)

theorem processStackRecords_spec (tf : PbdObject → Option PbdObject)
    (records : List (Option PbdObject)) (s : EngineState) :
    processStackRecords tf records s =
      { s with modelOps := s.modelOps ++ records.flatMap (stackRecordOps tf) } := by
  induction records generalizing s with
  | nil => simp [processStackRecords]
  | cons rec rest ih =>
    cases rec with
    | none => simp [processStackRecords, stackRecordOps, ih]
    | some o =>
      cases h : tf o with
      | none => simp [processStackRecords, stackRecordOps, h, ih]
      | some o2 =>
        simp [processStackRecords, stackRecordOps, h, ih,
          updateModelCall, integrateEvidenceCall]

theorem stackRecordOps_count_le_one (tf : PbdObject → Option PbdObject)
    (rec : Option PbdObject) :
    (stackRecordOps tf rec).count ModelOp.updateModel ≤ 1 := by
  cases rec with
  | none => simp [stackRecordOps]
  | some o =>
    cases h : tf o with
    | none => simp [stackRecordOps, h]
    | some o2 => simp [stackRecordOps, h]

theorem flatMap_stackRecordOps_count_le (tf : PbdObject → Option PbdObject)
    (records : List (Option PbdObject)) :
    (records.flatMap (stackRecordOps tf)).count ModelOp.updateModel ≤
      records.length := by
  induction records with
  | nil => simp
  | cons rec rest ih =>
    rw [List.flatMap_cons, List.count_append, List.length_cons]
    have h1 := stackRecordOps_count_le_one tf rec
    omega

/-- CLAIM C9.  In stack mode the engine makes exactly one pass over a
finite archive and stops: the run returns (terminates) with a model
trace extended by the concatenation, in archive order, of each record's
contribution, and the number of recompute (updateModel) calls is at
most the number of records — each record is processed at most once. -/
theorem stack_mode_single_pass (tf : PbdObject → Option PbdObject)
    (params : List (String × ParamValue))
    (records : List (Option PbdObject)) (s : EngineState)
    (p t : String)
    (hp : getStringParam params "bag_path" = some p)
    (hl : s.objectListenerTopic = some t) :
    ∃ s2, executeInStackMode tf params (BagFile.contents records) s =
        Except.ok (s2, records.isEmpty) ∧
      s2.modelOps = s.modelOps ++ records.flatMap (stackRecordOps tf) ∧
      (records.flatMap (stackRecordOps tf)).count ModelOp.updateModel ≤
        records.length := by
  refine ⟨processStackRecords tf records s, ?_, ?_, ?_⟩
  · simp [executeInStackMode, hp, hl]
  · rw [processStackRecords_spec]
  · exact flatMap_stackRecordOps_count_le tf records

/-- Concrete parameter store for the stack-mode witnesses. -/
def sampleStackParams : List (String × ParamValue) :=
  [("bag_path", ParamValue.strVal "/tmp/data.bag")]

/-- Witness for C9 at a two-record archive with an identity transform. -/
theorem stack_mode_single_pass_witness :
    ∃ s2,
      executeInStackMode some sampleStackParams
          (BagFile.contents [some ⟨"cup", (0, 0, 0)⟩, none]) sampleState =
        Except.ok (s2, [some (⟨"cup", (0, 0, 0)⟩ : PbdObject), none].isEmpty) ∧
      s2.modelOps = sampleState.modelOps ++
        ([some (⟨"cup", (0, 0, 0)⟩ : PbdObject), none].flatMap (stackRecordOps some)) ∧
      (([some (⟨"cup", (0, 0, 0)⟩ : PbdObject), none].flatMap
          (stackRecordOps some)).count ModelOp.updateModel) ≤
        [some (⟨"cup", (0, 0, 0)⟩ : PbdObject), none].length :=
  stack_mode_single_pass some sampleStackParams
    [some ⟨"cup", (0, 0, 0)⟩, none] sampleState "/tmp/data.bag"
    "/pbd/object" rfl rfl

/-- CLAIM C10.  Stack mode bypasses the message buffers entirely — both
come out exactly as they went in — and each record that instantiates
and transforms successfully contributes integrateEvidence immediately
followed by updateModel, so the model is recomputed once per successful
record rather than once after draining. -/
theorem stack_mode_bypasses_buffers (tf : PbdObject → Option PbdObject)
    (params : List (String × ParamValue))
    (records : List (Option PbdObject)) (s : EngineState)
    (p t : String)
    (hp : getStringParam params "bag_path" = some p)
    (hl : s.objectListenerTopic = some t) :
    ∃ s2, executeInStackMode tf params (BagFile.contents records) s =
        Except.ok (s2, records.isEmpty) ∧
      s2.evidenceBuffer = s.evidenceBuffer ∧
      s2.sceneGraphBuffer = s.sceneGraphBuffer ∧
      s2.modelOps = s.modelOps ++ records.flatMap (stackRecordOps tf) ∧
      ∀ o o2, tf o = some o2 →
        stackRecordOps tf (some o) =
          [ModelOp.integrateEvidence o2, ModelOp.updateModel] := by
  refine ⟨processStackRecords tf records s, ?_, ?_, ?_, ?_, ?_⟩
  · simp [executeInStackMode, hp, hl]
  · rw [processStackRecords_spec]
  · rw [processStackRecords_spec]
  · rw [processStackRecords_spec]
  · intro o o2 h
    simp [stackRecordOps, h]

/-- Witness for C10 at a one-record archive with an identity transform. -/
theorem stack_mode_bypasses_buffers_witness :
    ∃ s2,
      executeInStackMode some sampleStackParams
          (BagFile.contents [some ⟨"plate", (1, 2, 3)⟩]) sampleState =
        Except.ok (s2, [some (⟨"plate", (1, 2, 3)⟩ : PbdObject)].isEmpty) ∧
      s2.evidenceBuffer = sampleState.evidenceBuffer ∧
      s2.sceneGraphBuffer = sampleState.sceneGraphBuffer ∧
      s2.modelOps = sampleState.modelOps ++
        ([some (⟨"plate", (1, 2, 3)⟩ : PbdObject)].flatMap (stackRecordOps some)) ∧
      ∀ o o2, some o = some o2 →
        stackRecordOps some (some o) =
          [ModelOp.integrateEvidence o2, ModelOp.updateModel] :=
  stack_mode_bypasses_buffers some sampleStackParams
    [some ⟨"plate", (1, 2, 3)⟩] sampleState "/tmp/data.bag"
    "/pbd/object" rfl rfl

/-
  MappedProbabilityTable (PowerSetBackgroundInferenceAlgorithm.h lines
  79-193).  Only the class declaration is part of this repository; the
  member definitions are modelled from the spec as indicated on each
  definition.  Counts are embedded as exact rationals.
-/

/-- Modelled from the spec: MappedProbabilityTable::normalize on one
row — divide each entry by the row sum; a row with sum 0 is left as it
is (no divide-by-zero). -/
def normalizeRow (row : List ℚ) : List ℚ :=
  if row.sum = 0 then row else row.map (fun x => x / row.sum)

/-- Modelled from the spec: MappedProbabilityTable::normalize
(declared at PowerSetBackgroundInferenceAlgorithm.h lines 160-163) —
normalizes every row of the table so the values sum up to one. -/
def normalize (t : List (List ℚ)) : List (List ℚ) :=
  t.map normalizeRow

theorem sum_map_div (l : List ℚ) (c : ℚ) :
    (l.map (fun x => x / c)).sum = l.sum / c := by
  simp only [div_eq_mul_inv]
  simpa using List.sum_map_mul_right l (fun x => x) c⁻¹

/-- CLAIM C3.  After normalize(), every row of the table that has at
least one nonzero entry sums to exactly 1 (hence within the 1e-9
tolerance), and every row whose entries sum to 0 is left untouched and
all-zero — no division by zero occurs.  Entries are counts, so they
are non-negative. -/
theorem normalize_row_sums (t : List (List ℚ))
    (hpos : ∀ r ∈ t, ∀ x ∈ r, 0 ≤ x) :
    ∀ r ∈ t, normalizeRow r ∈ normalize t ∧
      ((∃ x ∈ r, x ≠ 0) →
        (normalizeRow r).sum = 1 ∧
        |(normalizeRow r).sum - 1| ≤ 1 / 1000000000) ∧
      (r.sum = 0 → normalizeRow r = r ∧ ∀ x ∈ normalizeRow r, x = 0) := by
  intro r hr
  refine ⟨List.mem_map_of_mem normalizeRow hr, ?_, ?_⟩
  · rintro ⟨x, hx, hxne⟩
    have hx0 : 0 ≤ x := hpos r hr x hx
    have hxpos : 0 < x := lt_of_le_of_ne hx0 (Ne.symm hxne)
    have hle : x ≤ r.sum := List.single_le_sum (hpos r hr) x hx
    have hne : r.sum ≠ 0 := ne_of_gt (lt_of_lt_of_le hxpos hle)
    have hsum : (normalizeRow r).sum = 1 := by
      rw [normalizeRow, if_neg hne, sum_map_div]
      exact div_self hne
    refine ⟨hsum, ?_⟩
    rw [hsum]
    norm_num
  · intro hz
    have heq : normalizeRow r = r := by rw [normalizeRow, if_pos hz]
    refine ⟨heq, ?_⟩
    rw [heq]
    intro x hx
    exact List.all_zero_of_le_zero_le_of_sum_eq_zero (hpos r hr) hz hx

/-- Witness for C3 on the concrete table [[2, 1], [0, 0]]. -/
theorem normalize_row_sums_witness :
    normalizeRow [2, 1] ∈ normalize [[2, 1], [0, 0]] ∧
    ((∃ x ∈ ([2, 1] : List ℚ), x ≠ 0) →
      (normalizeRow [2, 1]).sum = 1 ∧
      |(normalizeRow [2, 1]).sum - 1| ≤ 1 / 1000000000) ∧
    (([2, 1] : List ℚ).sum = 0 →
      normalizeRow [2, 1] = [2, 1] ∧ ∀ x ∈ normalizeRow [2, 1], x = 0) :=
  normalize_row_sums [[2, 1], [0, 0]]
    (by
      intro r hr x hx
      simp only [List.mem_cons, List.not_mem_nil, or_false] at hr
      rcases hr with rfl | rfl <;>
        (simp only [List.mem_cons, List.not_mem_nil, or_false] at hx
         rcases hx with rfl | rfl <;> norm_num))
    [2, 1] (by simp)

/-
  The vocabulary mapping of MappedProbabilityTable
  (mMappingTypeToIndice, a std::map from object-type name to table
  index).  Only declared in this repository; modelled from the spec.
-/

/-- Modelled from the spec: the lookup into the name-to-index mapping
(std::map::find on mMappingTypeToIndice). -/
def mappingLookup : List (String × Nat) → String → Option Nat
  | [], _ => none
  | (k, v) :: rest, t => if t = k then some v else mappingLookup rest t

/-- Modelled from the spec: MappedProbabilityTable::getIndex (declared
at PowerSetBackgroundInferenceAlgorithm.h lines 176-182) — returns the
index for the given object type, or zero if it is not in the list. -/
def getIndex (m : List (String × Nat)) (t : String) : Nat :=
  match mappingLookup m t with
  | some i => i
  | none => 0

/-- Modelled from the spec: registration of an object type
(MappedProbabilityTable::add / registerType) — a name already mapped
keeps its index, an unseen name is appended with the next fresh index;
index 0 stays reserved for the default bucket, so fresh indices start
at 1. -/
def registerType (m : List (String × Nat)) (t : String) :
    List (String × Nat) :=
  match mappingLookup m t with
  | some _ => m
  | none => m ++ [(t, m.length + 1)]

/-- The mapping grown by registering a list of names into the empty
vocabulary. -/
def buildMapping (names : List String) : List (String × Nat) :=
  names.foldl registerType []

theorem mappingLookup_append (m1 m2 : List (String × Nat)) (t : String) :
    mappingLookup (m1 ++ m2) t =
      match mappingLookup m1 t with
      | some i => some i
      | none => mappingLookup m2 t := by
  induction m1 with
  | nil => simp [mappingLookup]
  | cons p rest ih =>
    by_cases h : t = p.1
    · simp [mappingLookup, h]
    · simp [mappingLookup, h, ih]

theorem registerType_lookup_other (m : List (String × Nat))
    (n t : String) (h : t ≠ n) :
    mappingLookup (registerType m n) t = mappingLookup m t := by
  unfold registerType
  cases hl : mappingLookup m n with
  | some i => rfl
  | none =>
    rw [mappingLookup_append]
    cases hm : mappingLookup m t with
    | some i => rfl
    | none => simp [mappingLookup, h]

theorem registerType_lookup_self (m : List (String × Nat)) (n : String) :
    (mappingLookup (registerType m n) n).isSome := by
  unfold registerType
  cases hl : mappingLookup m n with
  | some i => simp [hl]
  | none =>
    rw [mappingLookup_append, hl]
    simp [mappingLookup]

theorem registerType_values_pos (m : List (String × Nat)) (n : String)
    (h : ∀ p ∈ m, 0 < p.2) :
    ∀ p ∈ registerType m n, 0 < p.2 := by
  unfold registerType
  cases hl : mappingLookup m n with
  | some i => exact h
  | none =>
    intro p hp
    rcases List.mem_append.mp hp with hp | hp
    · exact h p hp
    · simp only [List.mem_singleton] at hp
      subst hp
      exact Nat.succ_pos m.length

theorem foldl_registerType_lookup_none (names : List String) :
    ∀ (m : List (String × Nat)) (t : String), t ∉ names →
      mappingLookup m t = none →
      mappingLookup (names.foldl registerType m) t = none := by
  induction names with
  | nil => intro m t _ hm; simpa using hm
  | cons n rest ih =>
    intro m t ht hm
    have htn : t ≠ n := fun h => ht (h ▸ List.mem_cons_self n rest)
    have htr : t ∉ rest := fun h => ht (List.mem_cons_of_mem n h)
    rw [List.foldl_cons]
    exact ih (registerType m n) t htr
      ((registerType_lookup_other m n t htn).trans hm)

theorem foldl_registerType_lookup_some (names : List String) :
    ∀ (m : List (String × Nat)) (t : String),
      t ∈ names ∨ (mappingLookup m t).isSome →
      (mappingLookup (names.foldl registerType m) t).isSome := by
  induction names with
  | nil =>
    intro m t h
    simpa using h.resolve_left (by simp)
  | cons n rest ih =>
    intro m t h
    rw [List.foldl_cons]
    rcases h with h | h
    · rcases List.mem_cons.mp h with rfl | h
      · exact ih (registerType m t) t (Or.inr (registerType_lookup_self m t))
      · exact ih (registerType m n) t (Or.inl h)
    · refine ih (registerType m n) t (Or.inr ?_)
      by_cases htn : t = n
      · subst htn; exact registerType_lookup_self m t
      · rw [registerType_lookup_other m n t htn]; exact h

theorem foldl_registerType_values_pos (names : List String) :
    ∀ (m : List (String × Nat)), (∀ p ∈ m, 0 < p.2) →
      ∀ p ∈ names.foldl registerType m, 0 < p.2 := by
  induction names with
  | nil => intro m hm; simpa using hm
  | cons n rest ih =>
    intro m hm
    rw [List.foldl_cons]
    exact ih (registerType m n) (registerType_values_pos m n hm)

theorem mappingLookup_mem {m : List (String × Nat)} {t : String} {i : Nat}
    (h : mappingLookup m t = some i) : (t, i) ∈ m := by
  induction m with
  | nil => exact Option.noConfusion h
  | cons p rest ih =>
    by_cases ht : t = p.1
    · rw [mappingLookup, if_pos ht] at h
      obtain rfl := Option.some.inj h
      subst ht
      exact List.mem_cons_self _ _
    · rw [mappingLookup, if_neg ht] at h
      exact List.mem_cons_of_mem p (ih h)

/-- CLAIM C4.  Looking up an object-type name that was never registered
in the vocabulary mapping yields index 0, the reserved default bucket;
looking up a registered name yields exactly the index the mapping holds
for it (which is positive, so it never collides with the default
bucket). -/
theorem vocabulary_lookup_default (names : List String) (name : String) :
    (name ∉ names → getIndex (buildMapping names) name = 0) ∧
    (name ∈ names → ∃ i, mappingLookup (buildMapping names) name = some i ∧
      getIndex (buildMapping names) name = i ∧ 0 < i) := by
  constructor
  · intro h
    have := foldl_registerType_lookup_none names [] name h rfl
    rw [getIndex, buildMapping, this]
  · intro h
    have hs := foldl_registerType_lookup_some names [] name (Or.inl h)
    rcases Option.isSome_iff_exists.mp hs with ⟨i, hi⟩
    refine ⟨i, hi, ?_, ?_⟩
    · rw [getIndex, buildMapping, hi]
    · have hmem := mappingLookup_mem (m := buildMapping names) hi
      exact foldl_registerType_values_pos names [] (by simp) (name, i) hmem

/-- Witness for C4: in the vocabulary grown from cup and plate, fork
falls into the default bucket and cup keeps its registered index. -/
theorem vocabulary_lookup_default_witness :
    getIndex (buildMapping ["cup", "plate"]) "fork" = 0 ∧
    ∃ i, mappingLookup (buildMapping ["cup", "plate"]) "cup" = some i ∧
      getIndex (buildMapping ["cup", "plate"]) "cup" = i ∧ 0 < i :=
  ⟨(vocabulary_lookup_default ["cup", "plate"] "fork").1 (by decide),
   (vocabulary_lookup_default ["cup", "plate"] "cup").2 (by decide)⟩

/-
  PowerSetBackgroundInferenceAlgorithm
  (PowerSetBackgroundInferenceAlgorithm.h lines 28-62).  Only the class
  declaration is part of this repository; doInference is modelled from
  the spec: enumerate all 2^n subsets of the background evidences, give
  each subset the joint likelihood of being the true background
  explanation (product of per-item probabilities for items in the
  subset, times a no-detection weight per excluded item), and sum the
  subset likelihoods.  Evidence whose type is outside the background
  vocabulary is ignored by this computation.
-/

/-- All subsets of a list paired with their complements, in enumeration
order: for each element, branch on membership in the subset. -/
def subsetsWithComplement {α : Type} :
    List α → List (List α × List α)
  | [] => [([], [])]
  | x :: rest =>
    (subsetsWithComplement rest).map (fun pr => (x :: pr.1, pr.2)) ++
      (subsetsWithComplement rest).map (fun pr => (pr.1, x :: pr.2))

/-- Modelled from the spec: the summed power-set aggregation — every
subset contributes the product of the per-item probabilities p over its
members times the no-detection weight w over the excluded items, and
the contributions are summed. -/
def powerSetAggregate (p w : PbdObject → ℚ) (l : List PbdObject) : ℚ :=
  ((subsetsWithComplement l).map
    (fun pr => (pr.1.map p).prod * (pr.2.map w).prod)).sum

/-- The state of PowerSetBackgroundInferenceAlgorithm: the probability
calculated by the inference process. -/
structure PowerSetBackgroundInferenceAlgorithm where
  mProbability : ℚ
deriving Repr, DecidableEq

/-- Modelled from the spec:
PowerSetBackgroundInferenceAlgorithm::doInference (declared at
PowerSetBackgroundInferenceAlgorithm.h lines 28-62) — restrict the
evidence list to the background vocabulary (membership bg), run the
power-set aggregation with the background table probabilities p and the
no-detection weights w, and store the result. -/
def doInference (p w : PbdObject → ℚ) (bg : PbdObject → Bool)
    (pEvidenceList : List PbdObject)
    (alg : PowerSetBackgroundInferenceAlgorithm) :
    PowerSetBackgroundInferenceAlgorithm :=
  let _ := alg
  { mProbability := powerSetAggregate p w (pEvidenceList.filter bg) }

/-- PowerSetBackgroundInferenceAlgorithm::getProbability — returns the
probability calculated by the inference process. -/
def getProbability (alg : PowerSetBackgroundInferenceAlgorithm) : ℚ :=
  alg.mProbability

theorem powerSetAggregate_closed (p w : PbdObject → ℚ)
    (l : List PbdObject) :
    powerSetAggregate p w l = (l.map (fun x => p x + w x)).prod := by
  induction l with
  | nil => simp [powerSetAggregate, subsetsWithComplement]
  | cons x rest ih =>
    have h1 : ((subsetsWithComplement rest).map
        (fun pr : List PbdObject × List PbdObject =>
          p x * ((pr.1.map p).prod * (pr.2.map w).prod))).sum =
        p x * powerSetAggregate p w rest := by
      rw [powerSetAggregate]
      exact List.sum_map_mul_left (subsetsWithComplement rest)
        (fun pr => (pr.1.map p).prod * (pr.2.map w).prod) (p x)
    have h2 : ((subsetsWithComplement rest).map
        (fun pr : List PbdObject × List PbdObject =>
          w x * ((pr.1.map p).prod * (pr.2.map w).prod))).sum =
        w x * powerSetAggregate p w rest := by
      rw [powerSetAggregate]
      exact List.sum_map_mul_left (subsetsWithComplement rest)
        (fun pr => (pr.1.map p).prod * (pr.2.map w).prod) (w x)
    calc powerSetAggregate p w (x :: rest)
        = ((subsetsWithComplement rest).map
            (fun pr : List PbdObject × List PbdObject =>
              p x * ((pr.1.map p).prod * (pr.2.map w).prod))).sum +
          ((subsetsWithComplement rest).map
            (fun pr : List PbdObject × List PbdObject =>
              w x * ((pr.1.map p).prod * (pr.2.map w).prod))).sum := by
          have e1 : ((fun pr : List PbdObject × List PbdObject =>
                (pr.1.map p).prod * (pr.2.map w).prod) ∘
                fun pr : List PbdObject × List PbdObject => (x :: pr.1, pr.2)) =
              fun pr : List PbdObject × List PbdObject =>
                p x * ((pr.1.map p).prod * (pr.2.map w).prod) := by
            funext pr
            simp [mul_assoc]
          have e2 : ((fun pr : List PbdObject × List PbdObject =>
                (pr.1.map p).prod * (pr.2.map w).prod) ∘
                fun pr : List PbdObject × List PbdObject => (pr.1, x :: pr.2)) =
              fun pr : List PbdObject × List PbdObject =>
                w x * ((pr.1.map p).prod * (pr.2.map w).prod) := by
            funext pr
            simp only [Function.comp_apply, List.map_cons, List.prod_cons]
            ring
          rw [powerSetAggregate, subsetsWithComplement, List.map_append,
            List.sum_append, List.map_map, List.map_map, e1, e2]
      _ = (p x + w x) * powerSetAggregate p w rest := by
          rw [h1, h2, add_mul]
      _ = ((x :: rest).map (fun y => p y + w y)).prod := by
          rw [List.map_cons, List.prod_cons, ih]

/-- CLAIM C5.  The probability computed by the power-set background
inference (doInference followed by getProbability) is invariant under
permutation of the input evidence list: any two reorderings of the same
evidence items yield the same result. -/
theorem powerset_inference_perm_invariant (p w : PbdObject → ℚ)
    (bg : PbdObject → Bool) (l1 l2 : List PbdObject)
    (alg : PowerSetBackgroundInferenceAlgorithm)
    (h : l1.Perm l2) :
    getProbability (doInference p w bg l1 alg) =
      getProbability (doInference p w bg l2 alg) := by
  simp only [getProbability, doInference]
  rw [powerSetAggregate_closed, powerSetAggregate_closed]
  exact ((h.filter bg).map (fun x => p x + w x)).prod_eq

/-- Witness for C5: swapping two concrete evidences leaves the inferred
probability unchanged. -/
theorem powerset_inference_perm_invariant_witness :
    getProbability
        (doInference (fun _ => 1 / 2) (fun _ => 1 / 4) (fun _ => true)
          [⟨"cup", (0, 0, 0)⟩, ⟨"plate", (1, 1, 1)⟩]
          (PowerSetBackgroundInferenceAlgorithm.mk 0)) =
      getProbability
        (doInference (fun _ => 1 / 2) (fun _ => 1 / 4) (fun _ => true)
          [⟨"plate", (1, 1, 1)⟩, ⟨"cup", (0, 0, 0)⟩]
          (PowerSetBackgroundInferenceAlgorithm.mk 0)) :=
  powerset_inference_perm_invariant (fun _ => 1 / 2) (fun _ => 1 / 4)
    (fun _ => true) [⟨"cup", (0, 0, 0)⟩, ⟨"plate", (1, 1, 1)⟩]
    [⟨"plate", (1, 1, 1)⟩, ⟨"cup", (0, 0, 0)⟩]
    (PowerSetBackgroundInferenceAlgorithm.mk 0)
    (List.Perm.swap (⟨"plate", (1, 1, 1)⟩ : PbdObject)
      (⟨"cup", (0, 0, 0)⟩ : PbdObject) [])

end ProbabilisticSceneRecognition
